import Mathlib

/-!
Verification of the generic CRUD resource engine of `r4ulcl/api_template`.

The Go sources are shallowly embedded:
* Go byte/character strings are Lean `String` / `List Char`;
* the relational store consumed through GORM is a `Table`: a primary-key
  arity together with a list of rows, each row a list of primary-key values
  paired with a payload;
* fallible database calls return `Except DBErr`;
* HTTP handlers are pure functions from request data (and the current
  store) to a status code, body data and resulting store.
-/

namespace ApiTemplate

/-! ### Go `strings` primitives used by the engine -/

/-- Model of Go `strings.Split(s, sep)` for a one-character separator,
on the character-list view of a string. -/
def splitOnChar (sep : Char) : List Char → List (List Char)
  | [] => [[]]
  | c :: rest =>
    let r := splitOnChar sep rest
    if c = sep then [] :: r
    else
      match r with
      | [] => [[c]]
      | h :: t => (c :: h) :: t

theorem splitOnChar_ne_nil (sep : Char) (s : List Char) : splitOnChar sep s ≠ [] := by
  induction s with
  | nil => simp [splitOnChar]
  | cons c rest ih =>
    simp only [splitOnChar]
    split
    · simp
    · split
      · simp
      · simp

theorem splitOnChar_length (sep : Char) (s : List Char) :
    (splitOnChar sep s).length = 1 + s.count sep := by
  induction s with
  | nil => simp [splitOnChar]
  | cons c rest ih =>
    simp only [splitOnChar]
    by_cases h : c = sep
    · subst h
      simp [List.count_cons, ih]
      omega
    · rcases hr : splitOnChar sep rest with _ | ⟨hd, tl⟩
      · exact absurd hr (splitOnChar_ne_nil sep rest)
      · simp only [if_neg h, hr]
        have := ih
        rw [hr] at this
        simp [List.count_cons, h] at this ⊢
        simpa [h] using this

/-- Go `strings.Split(s, sep)` for a one-character separator, on `String`. -/
def splitGo (sep : Char) (s : String) : List String :=
  (splitOnChar sep s.toList).map List.asString

/-- The tokenized-id splitter: `strings.Split(id, "-")` as used by
`GetRecordsByID`, `UpdateRecords` and `DeleteRecords`. -/
def splitId (id : String) : List String :=
  splitGo '-' id

theorem splitId_length (id : String) :
    (splitId id).length = 1 + id.toList.count '-' := by
  simp [splitId, splitGo, splitOnChar_length]

/-- Whether a string contains the hyphen character. -/
def hasHyphen (id : String) : Bool :=
  id.toList.contains '-'

theorem splitId_length_ne_one_of_hasHyphen (id : String) (h : hasHyphen id = true) :
    (splitId id).length ≠ 1 := by
  have hmem : '-' ∈ id.toList := by
    simpa [hasHyphen] using h
  have : 0 < id.toList.count '-' := List.count_pos_iff.mpr hmem
  rw [splitId_length]
  omega

/-- `a` starts with the pattern `pat` (character-list view). -/
def charsStartWith : List Char → List Char → Bool
  | [], _ => true
  | _ :: _, [] => false
  | p :: ps, c :: cs => p = c && charsStartWith ps cs

/-- `s` has `pat` as a contiguous substring (character-list view).
Models Go `strings.Contains`. -/
def charsHaveSub (pat : List Char) : List Char → Bool
  | [] => pat.isEmpty
  | c :: rest => charsStartWith pat (c :: rest) || charsHaveSub pat rest

/-- Model of Go `strings.Contains(s, pat)`. -/
def strContains (s pat : String) : Bool :=
  charsHaveSub pat.toList s.toList

theorem charsStartWith_mem (pat s : List Char) (h : charsStartWith pat s = true) :
    ∀ c ∈ pat, c ∈ s := by
  induction pat generalizing s with
  | nil => intro c hc; cases hc
  | cons p ps ih =>
    cases s with
    | nil => simp [charsStartWith] at h
    | cons x xs =>
      simp only [charsStartWith, Bool.and_eq_true, decide_eq_true_eq] at h
      intro c hc
      rcases List.mem_cons.mp hc with rfl | hc
      · exact h.1 ▸ List.mem_cons_self _ _
      · exact List.mem_cons_of_mem _ (ih xs h.2 c hc)

theorem charsHaveSub_mem (pat s : List Char) (h : charsHaveSub pat s = true) :
    ∀ c ∈ pat, c ∈ s := by
  induction s with
  | nil =>
    simp [charsHaveSub, List.isEmpty_iff] at h
    subst h; intro c hc; cases hc
  | cons x xs ih =>
    simp only [charsHaveSub, Bool.or_eq_true] at h
    rcases h with h | h
    · exact charsStartWith_mem pat (x :: xs) h
    · intro c hc
      exact List.mem_cons_of_mem _ (ih h c hc)

/-- If the pattern has a character the string lacks, `strContains` is false. -/
theorem strContains_eq_false_of_missing (s pat : String) (c : Char)
    (hc : c ∈ pat.toList) (hs : c ∉ s.toList) : strContains s pat = false := by
  by_contra h
  have h' : charsHaveSub pat.toList s.toList = true := by
    simpa [strContains] using h
  exact hs (charsHaveSub_mem _ _ h' c hc)

theorem charsStartWith_self_append (pat rest : List Char) :
    charsStartWith pat (pat ++ rest) = true := by
  induction pat with
  | nil => simp [charsStartWith]
  | cons p ps ih => simp [charsStartWith, ih]

theorem charsHaveSub_of_startWith (pat s : List Char) (h : charsStartWith pat s = true) :
    charsHaveSub pat s = true := by
  cases s with
  | nil =>
    cases pat with
    | nil => simp [charsHaveSub]
    | cons p ps => simp [charsStartWith] at h
  | cons c rest => simp [charsHaveSub, h]

/-- A string that literally starts with the pattern contains it. -/
theorem strContains_of_isPrefix (pat rest : String) :
    strContains (pat ++ rest) pat = true := by
  have hl : (pat ++ rest).toList = pat.toList ++ rest.toList := by
    simp [String.data_append]
  simp only [strContains, hl]
  exact charsHaveSub_of_startWith _ _ (charsStartWith_self_append _ _)

/-- Model of Go `fmt` `%d` rendering of a nonnegative integer
(decimal digits, most significant first). -/
def natDecimal (n : Nat) : List Char :=
  if n < 10 then [Nat.digitChar n]
  else natDecimal (n / 10) ++ [Nat.digitChar (n % 10)]
decreasing_by exact Nat.div_lt_self (by omega) (by omega)

def decimalDigits : List Char :=
  ['0', '1', '2', '3', '4', '5', '6', '7', '8', '9']

theorem digitChar_mem_decimalDigits (m : Nat) (h : m < 10) :
    Nat.digitChar m ∈ decimalDigits := by
  interval_cases m <;> decide

theorem natDecimal_subset_digits (n : Nat) :
    ∀ c ∈ natDecimal n, c ∈ decimalDigits := by
  induction n using Nat.strong_induction_on with
  | _ n ih =>
    intro c hc
    rw [natDecimal] at hc
    by_cases h : n < 10
    · rw [if_pos h] at hc
      rcases List.mem_singleton.mp hc with rfl
      exact digitChar_mem_decimalDigits n h
    · rw [if_neg h] at hc
      rcases List.mem_append.mp hc with hc | hc
      · exact ih (n / 10) (Nat.div_lt_self (by omega) (by omega)) c hc
      · rcases List.mem_singleton.mp hc with rfl
        exact digitChar_mem_decimalDigits _ (Nat.mod_lt _ (by omega))

/-! ### Data model: entity schemas (from `utils/models`)

Each Go struct field carries a GORM tag (storage column, `primaryKey`
marker) and a JSON tag; the engine extracts primary-key metadata from
these tags by reflection (`getPrimaryKeyFields`, `getJSONPrimaryKeys`). -/

structure FieldDesc where
  name : String
  column : String
  jsonName : String
  primaryKey : Bool

/-- `models.Example1`: `Field1` (pk) and `Field2`. -/
def example1Fields : List FieldDesc :=
  [⟨"Field1", "field1", "field1", true⟩, ⟨"Field2", "field2", "field2", false⟩]

/-- `models.Example2`: same shape as `Example1`. -/
def example2Fields : List FieldDesc :=
  [⟨"Field1", "field1", "field1", true⟩, ⟨"Field2", "field2", "field2", false⟩]

/-- `models.ExampleRelational`: composite primary key of two fields. -/
def exampleRelationalFields : List FieldDesc :=
  [⟨"Example1Field1", "example1_field1", "example1_field1", true⟩,
   ⟨"Example2Field1", "example2_field1", "example2_field1", true⟩,
   ⟨"Field3", "field3", "field3", false⟩]

/-- `models.User`: `Username` (pk), `Password`, `Role`, timestamps. -/
def userFields : List FieldDesc :=
  [⟨"Username", "username", "username", true⟩,
   ⟨"Password", "password", "password", false⟩,
   ⟨"Role", "role", "role", false⟩,
   ⟨"CreatedAt", "created_at", "created_at", false⟩,
   ⟨"UpdatedAt", "updated_at", "updated_at", false⟩]

/-- `getJSONPrimaryKeys`: JSON names of the `primaryKey`-tagged fields,
in struct-field order. -/
def getJSONPrimaryKeys (fs : List FieldDesc) : List String :=
  (fs.filter (·.primaryKey)).map (·.jsonName)

/-- `getPrimaryKeyFields`: struct-field names of `primaryKey`-tagged fields. -/
def getPrimaryKeyFields (fs : List FieldDesc) : List String :=
  (fs.filter (·.primaryKey)).map (·.name)

/-! ### The relational store collaborator

A `Table` is the engine's view of one entity's table: the number of
primary-key fields of the registered struct, and the stored rows.  A row
is its list of primary-key values (in field order, string-typed exactly
as the engine assumes) paired with a payload of the remaining columns. -/

structure Table (α : Type) where
  pkCount : Nat
  rows : List (List String × α)

/-- A database error: the driver message plus, when the driver is
PostgreSQL `pq`, the SQLSTATE code carried by `pq.Error`. -/
structure DBErr where
  msg : String
  pqCode : Option String

/-- `isDuplicateKeyError`: pq code 23505, or a MySQL `1062` message. -/
def isDuplicateKeyError (e : DBErr) : Bool :=
  e.pqCode == some "23505" || strContains e.msg "1062"

/-- The duplicate-key violation as the program actually sees it:
`ConnectDB` opens the database exclusively through the MySQL driver
(`mysql.Open`, no error translation), whose unique-constraint error reads
`Error 1062 (23000): Duplicate entry ... for key ...`.  It is not a
`pq.Error` (so no SQLSTATE code); `isDuplicateKeyError` classifies it
through the `"1062"` substring.  Note the capital `D`: the message
contains no lowercase `"duplicate"`. -/
def dupKeyErr : DBErr :=
  ⟨"Error 1062 (23000): Duplicate entry \x27a\x27 for key \x27example1.PRIMARY\x27", none⟩

/-- `DB.Create` on a single instance: a unique-constraint violation when a
row with the same primary-key values already exists, otherwise append. -/
def insertRow {α : Type} (t : Table α) (r : List String × α) : Except DBErr (Table α) :=
  if t.rows.any (fun x => x.1 == r.1) then .error dupKeyErr
  else .ok { t with rows := t.rows ++ [r] }

/-- `DB.First` under `WHERE pk1 = ? AND pk2 = ? ...`. -/
def findByKey {α : Type} (t : Table α) (key : List String) : Option (List String × α) :=
  t.rows.find? (fun r => r.1 == key)

/-- `DB.Save(model)`: full-row upsert keyed on the model's primary-key
values. -/
def saveRow {α : Type} (t : Table α) (m : List String × α) : Table α :=
  if t.rows.any (fun r => r.1 == m.1) then
    { t with rows := t.rows.map (fun r => if r.1 == m.1 then m else r) }
  else
    { t with rows := t.rows ++ [m] }

/-- `BaseController.GetRecordsByID`: split the id on `-`, require the
segment count to equal the primary-key count, then look the row up by the
per-field map. -/
def getRecordsByID {α : Type} (t : Table α) (id : String) :
    Except DBErr (List String × α) :=
  let parts := splitId id
  if t.pkCount ≠ parts.length then
    .error ⟨"mismatch between primary keys and tokenized ID", none⟩
  else
    match findByKey t parts with
    | some r => .ok r
    | none => .error ⟨"record not found", none⟩

/-- `BaseController.UpdateRecords`.  With a non-empty id the key comes
from the tokenized id; with an empty id it comes from the primary-key
values already in the decoded model.  The existing row is then fetched
with `query.First(model)` — which scans the found row INTO the model,
replacing the decoded data — and `DB.Save(model)` persists that
(now clobbered) model.  Returns the resulting table and the model as the
handler will echo it. -/
def updateRecords {α : Type} (t : Table α) (model : List String × α) (id : String) :
    Except DBErr (Table α × (List String × α)) :=
  if id = "" then
    -- key values extracted from the model itself (`getPrimaryKeyValues`)
    if t.pkCount = 0 then
      .error ⟨"no primary keys found in the model", none⟩
    else
      match findByKey t model.1 with
      | none => .error ⟨"record not found", none⟩
      | some found => .ok (saveRow t found, found)
  else
    let parts := splitId id
    if t.pkCount ≠ parts.length then
      .error ⟨"mismatch between number of primary keys and ID parts", none⟩
    else
      match findByKey t parts with
      | none => .error ⟨"record not found", none⟩
      | some found => .ok (saveRow t found, found)

/-- The formatted mismatch message of `DeleteRecords`
(`"mismatch between primary keys (%d) and tokenized ID parts (%d)"`). -/
def deleteMismatchMsg (pkCount partCount : Nat) : String :=
  "mismatch between primary keys (" ++ (natDecimal pkCount).asString ++
    ") and tokenized ID parts (" ++ (natDecimal partCount).asString ++ ")"

/-- `BaseController.DeleteRecords`: tokenize, check the segment count,
write the segments into the primary-key fields of a fresh instance and
delete by that key; zero rows affected is an error. -/
def deleteRecords {α : Type} (t : Table α) (id : String) : Except DBErr (Table α) :=
  let parts := splitId id
  if t.pkCount ≠ parts.length then
    .error ⟨deleteMismatchMsg t.pkCount parts.length, none⟩
  else
    let remaining := t.rows.filter (fun r => !(r.1 == parts))
    if remaining.length = t.rows.length then
      .error ⟨"no records deleted for ID " ++ id, none⟩
    else
      .ok { t with rows := remaining }

/-- `BaseController.CreateOrUpdateRecord`: try to insert; on a
duplicate-key violation with `overwrite` fall back to
`UpdateRecords(model, "")`, otherwise propagate the error. -/
def createOrUpdateRecord {α : Type} (t : Table α) (model : List String × α)
    (overwrite : Bool) : Except DBErr (Table α × (List String × α)) :=
  match insertRow t model with
  | .ok t' => .ok (t', model)
  | .error e =>
    if isDuplicateKeyError e then
      if overwrite then
        match updateRecords t model "" with
        | .error ue => .error ue
        | .ok r => .ok r
      else .error e
    else .error e

/-! ### HTTP controllers (`controllers/base_controller.go`)

Each handler is modelled at the point after routing and JSON decoding:
it receives the current table (and the decoded body where relevant) and
returns the HTTP status plus the response/store data the claims speak
about. -/

/-- `Controller.GetByID`: 404 when the error message contains
`"record not found"`, otherwise 500; 200 with the row on success. -/
def getByIDHandler {α : Type} (t : Table α) (id : String) :
    Nat × Except String (List String × α) :=
  match getRecordsByID t id with
  | .error e =>
    if strContains e.msg "record not found" then (404, .error e.msg)
    else (500, .error e.msg)
  | .ok r => (200, .ok r)

/-- `Controller.Update` (PATCH), after a successful JSON decode of the
body: 404 when the message contains `"record not found"`, else 500;
200 with the resulting table on success. -/
def updateHandler {α : Type} (t : Table α) (body : List String × α) (id : String) :
    Nat × Table α :=
  match updateRecords t body id with
  | .error e => if strContains e.msg "record not found" then (404, t) else (500, t)
  | .ok (t', _) => (200, t')

/-- `Controller.Delete`: 404 when the message contains
`"no records deleted"` or `"not found"`, else 500; 200 with the body
`{"message": "Deleted successfully"}` on success. -/
def deleteHandler {α : Type} (t : Table α) (id : String) :
    Nat × String × Table α :=
  match deleteRecords t id with
  | .error e =>
    if strContains e.msg "no records deleted" || strContains e.msg "not found" then
      (404, e.msg, t)
    else
      (500, e.msg, t)
  | .ok t' => (200, "Deleted successfully", t')

/-- `Controller.Create`, single-object path, after a successful JSON
decode: 409 when the error message contains `"duplicate"`, 500 on other
errors, 201 with the (possibly clobbered) echoed model on success. -/
def createHandler {α : Type} (t : Table α) (body : List String × α) (overwrite : Bool) :
    Nat × Table α × (List String × α) :=
  match createOrUpdateRecord t body overwrite with
  | .ok (t', m) => (201, t', m)
  | .error e =>
    if strContains e.msg "duplicate" then (409, t, body) else (500, t, body)

/-! ### Classification of the structural-mismatch errors -/

theorem data_asString (l : List Char) : (List.asString l).data = l := rfl

theorem not_mem_deleteMismatchMsg (a b : Nat) (c : Char)
    (hdig : c ∉ decimalDigits)
    (h1 : c ∉ "mismatch between primary keys (".data)
    (h2 : c ∉ ") and tokenized ID parts (".data)
    (h3 : c ∉ ")".data) :
    c ∉ (deleteMismatchMsg a b).toList := by
  intro hmem
  simp only [deleteMismatchMsg, String.toList, String.data_append, List.mem_append,
    data_asString] at hmem
  rcases hmem with (((hm | hm) | hm) | hm) | hm
  · exact h1 hm
  · exact hdig (natDecimal_subset_digits a c hm)
  · exact h2 hm
  · exact hdig (natDecimal_subset_digits b c hm)
  · exact h3 hm

theorem deleteMismatchMsg_not_notfound (a b : Nat) :
    strContains (deleteMismatchMsg a b) "not found" = false :=
  strContains_eq_false_of_missing _ _ 'f' (by decide)
    (not_mem_deleteMismatchMsg a b 'f' (by decide) (by decide) (by decide) (by decide))

theorem deleteMismatchMsg_not_nodeleted (a b : Nat) :
    strContains (deleteMismatchMsg a b) "no records deleted" = false :=
  strContains_eq_false_of_missing _ _ 'l' (by decide)
    (not_mem_deleteMismatchMsg a b 'l' (by decide) (by decide) (by decide) (by decide))

/-- C1, amended: a tokenized id whose segment count differs from the
entity's primary-key field count makes `GetByID`, `Update` and `Delete`
answer 500 (Internal Server Error) — the mismatch messages match neither
`"record not found"` nor the delete handler's 404 patterns — never 404,
and the model is total (no panic). -/
theorem tokenized_mismatch_yields_internal_error {α : Type} (t : Table α)
    (body : List String × α) (id : String)
    (hid : id ≠ "") (hlen : t.pkCount ≠ (splitId id).length) :
    (getByIDHandler t id).1 = 500
    ∧ (updateHandler t body id).1 = 500
    ∧ (deleteHandler t id).1 = 500 := by
  have hget : getRecordsByID t id =
      .error ⟨"mismatch between primary keys and tokenized ID", none⟩ := by
    simp only [getRecordsByID]
    rw [if_pos hlen]
  have hupd : updateRecords t body id =
      .error ⟨"mismatch between number of primary keys and ID parts", none⟩ := by
    simp only [updateRecords]
    rw [if_neg hid, if_pos hlen]
  have hdel : deleteRecords t id =
      .error ⟨deleteMismatchMsg t.pkCount (splitId id).length, none⟩ := by
    simp only [deleteRecords]
    rw [if_pos hlen]
  have hc1 : strContains "mismatch between primary keys and tokenized ID"
      "record not found" = false := by decide
  have hc2 : strContains "mismatch between number of primary keys and ID parts"
      "record not found" = false := by decide
  refine ⟨?_, ?_, ?_⟩
  · simp [getByIDHandler, hget, hc1]
  · simp [updateHandler, hupd, hc2]
  · simp [deleteHandler, hdel, deleteMismatchMsg_not_notfound,
      deleteMismatchMsg_not_nodeleted]

/-- C1, counterexample to the claim as stated: `Example1` has one
primary-key field, the id `"a-b"` splits into two segments, and the
response status is 500, not the claimed 400 (BadRequest). -/
theorem tokenized_mismatch_counterexample :
    (getByIDHandler (⟨1, []⟩ : Table String) "a-b").1 = 500
    ∧ ¬((getByIDHandler (⟨1, []⟩ : Table String) "a-b").1 = 400) := by
  decide

/-- Witness for `tokenized_mismatch_yields_internal_error` at the
single-primary-key table and the two-segment id `"a-b"`. -/
theorem tokenized_mismatch_yields_internal_error_witness :
    ("a-b" ≠ "" ∧ (⟨1, []⟩ : Table String).pkCount ≠ (splitId "a-b").length)
    ∧ ((getByIDHandler (⟨1, []⟩ : Table String) "a-b").1 = 500
      ∧ (updateHandler (⟨1, []⟩ : Table String) (["x"], "y") "a-b").1 = 500
      ∧ (deleteHandler (⟨1, []⟩ : Table String) "a-b").1 = 500) :=
  ⟨⟨by decide, by decide⟩,
    tokenized_mismatch_yields_internal_error _ _ _ (by decide) (by decide)⟩

/-! ### GetAll: pagination (`Controller.GetAll`) -/

def isDigitChar (c : Char) : Bool :=
  '0' ≤ c && c ≤ '9'

def digitsToNat (acc : Nat) : List Char → Option Nat
  | [] => some acc
  | c :: cs =>
    if isDigitChar c then digitsToNat (acc * 10 + (c.toNat - '0'.toNat)) cs
    else none

/-- Model of Go `strconv.Atoi` (overflow aside): an optional sign followed
by one or more decimal digits; anything else is an error. -/
def atoi (s : String) : Option Int :=
  match s.toList with
  | [] => none
  | '-' :: ds =>
    match ds with
    | [] => none
    | _ :: _ => (digitsToNat 0 ds).map (fun n => -(n : Int))
  | '+' :: ds =>
    match ds with
    | [] => none
    | _ :: _ => (digitsToNat 0 ds).map (fun n => (n : Int))
  | ds => (digitsToNat 0 ds).map (fun n => (n : Int))

/-- The `page` / `page_size` parsing pattern of `GetAll`: keep the default
unless the parameter parses as a positive integer. -/
def parsePosInt (s : String) (dflt : Nat) : Nat :=
  match atoi s with
  | some p => if p > 0 then p.toNat else dflt
  | none => dflt

theorem parsePosInt_pos (s : String) (dflt : Nat) (hd : 0 < dflt) :
    0 < parsePosInt s dflt := by
  unfold parsePosInt
  rcases atoi s with _ | p
  · exact hd
  · by_cases hp : p > 0
    · simp only [hp, if_true]
      omega
    · simp [hp, hd]

/-- The paginated result envelope (`paginatedResponse` / `paginationMeta`
/ `paginationLinks`); an absent `prev`/`next` link is the empty string,
dropped by the `omitempty` JSON tag. -/
structure Envelope (α : Type) where
  data : List α
  currentPage : Nat
  pageSize : Nat
  totalItems : Nat
  totalPages : Nat
  selfLink : String
  firstLink : String
  prevLink : String
  nextLink : String
  lastLink : String

/-- `makeLink`: the request path with `page` / `page_size` rewritten
(filter and sort parameters elided — only nonemptiness matters here). -/
def makeLink (basePath : String) (pageSize p : Nat) : String :=
  basePath ++ "?page=" ++ toString p ++ "&page_size=" ++ toString pageSize

/-- `Controller.GetAll` on the rows matching the request's filters:
parse `page`/`page_size` with silent fallback, count the filtered rows,
fetch the page slice via limit/offset, and build the envelope. -/
def getAllHandler {α : Type} (rows : List α)
    (basePath pageParam pageSizeParam : String) : Envelope α :=
  let page := parsePosInt pageParam 1
  let perPage := parsePosInt pageSizeParam 1000
  let totalItems := rows.length
  let offset := (page - 1) * perPage
  let totalPages := (totalItems + perPage - 1) / perPage
  let data := (rows.drop offset).take perPage
  { data := data
    currentPage := page
    pageSize := perPage
    totalItems := totalItems
    totalPages := totalPages
    selfLink := makeLink basePath perPage page
    firstLink := makeLink basePath perPage 1
    prevLink := if page > 1 then makeLink basePath perPage (page - 1) else ""
    nextLink := if page < totalPages then makeLink basePath perPage (page + 1) else ""
    lastLink := makeLink basePath perPage totalPages }

theorem makeLink_ne_empty (basePath : String) (pageSize p : Nat) :
    makeLink basePath pageSize p ≠ "" := by
  intro h
  have hlen : (makeLink basePath pageSize p).length = 0 := by
    rw [h]; rfl
  have h6 : "?page=".length = 6 := rfl
  simp [makeLink, String.length_append, h6] at hlen

/-- C2: every `GetAll` envelope carries at most `page_size` data items,
`total_pages = ⌈total_items / page_size⌉`, and the `prev` / `next` links
are present exactly when `current_page > 1` / `current_page < total_pages`. -/
theorem getAll_envelope_invariants {α : Type} (rows : List α)
    (basePath pageParam pageSizeParam : String) :
    (getAllHandler rows basePath pageParam pageSizeParam).data.length ≤
      (getAllHandler rows basePath pageParam pageSizeParam).pageSize
    ∧ (getAllHandler rows basePath pageParam pageSizeParam).totalPages =
      (getAllHandler rows basePath pageParam pageSizeParam).totalItems ⌈/⌉
        (getAllHandler rows basePath pageParam pageSizeParam).pageSize
    ∧ ((getAllHandler rows basePath pageParam pageSizeParam).prevLink ≠ "" ↔
      1 < (getAllHandler rows basePath pageParam pageSizeParam).currentPage)
    ∧ ((getAllHandler rows basePath pageParam pageSizeParam).nextLink ≠ "" ↔
      (getAllHandler rows basePath pageParam pageSizeParam).currentPage <
        (getAllHandler rows basePath pageParam pageSizeParam).totalPages) := by
  refine ⟨?_, ?_, ?_, ?_⟩
  · simp [getAllHandler, List.length_take]
  · simp [getAllHandler, Nat.ceilDiv_eq_add_pred_div]
  · simp only [getAllHandler]
    by_cases h : 1 < parsePosInt pageParam 1
    · simp [h, makeLink_ne_empty]
    · simp [h]
  · simp only [getAllHandler]
    by_cases h : parsePosInt pageParam 1 <
        (rows.length + parsePosInt pageSizeParam 1000 - 1) / parsePosInt pageSizeParam 1000
    · simp [h, makeLink_ne_empty]
    · simp [h]

/-! ### Create: array-vs-object detection (`Controller.Create`, payload scan)

The Go code reads the body one byte at a time; each iteration evaluates
`bytes.TrimSpace(firstBytes)[0]`, which indexes into an EMPTY slice — an
index-out-of-range panic — whenever the byte just read is whitespace. -/

/-- The whitespace bytes trimmed by `bytes.TrimSpace` (ASCII range). -/
def isSpaceByte (c : Char) : Bool :=
  c = ' ' || c = '\t' || c = '\n' || c = '\x0d' || c = '\x0b' || c = '\x0c'

/-- Result of one run of the detection loop: `none` models the
index-out-of-range panic; `some lastByte` is a normal exit, carrying the
final content of `firstBytes` (`none` inside when no byte was ever read). -/
def scanLoop : List Char → Option (Option Char)
  | [] => some none
  | c :: rest =>
    if isSpaceByte c then none
    else if c = '[' || c = '{' then some (some c)
    else scanLoop rest

inductive CreateMode where
  | panicked
  | bulk
  | single

instance : DecidableEq CreateMode := fun a b => by
  cases a <;> cases b <;> first
    | exact isTrue rfl
    | exact isFalse (by intro h; cases h)

/-- The Create payload dispatch: bulk-insert when the loop stops on `[`,
single-object otherwise; `panicked` when the loop hits a whitespace byte. -/
def detectCreateMode (body : List Char) : CreateMode :=
  match scanLoop body with
  | none => .panicked
  | some (some c) => if c = '[' then .bulk else .single
  | some none => .single

/-- C3: the detection is NOT total — a body whose first byte is
whitespace makes `bytes.TrimSpace(firstBytes)[0]` index an empty slice
and panic, while bodies starting directly with `[` / `{` are dispatched
to the bulk / single path. -/
theorem create_detection_panics_on_leading_whitespace :
    detectCreateMode (" \x7b\"field1\":\"a\"\x7d".toList) = CreateMode.panicked
    ∧ detectCreateMode ("[\x7b\"field1\":\"a\"\x7d]".toList) = CreateMode.bulk
    ∧ detectCreateMode ("\x7b\"field1\":\"a\"\x7d".toList) = CreateMode.single := by
  refine ⟨rfl, rfl, rfl⟩

/-! ### Role permissions: the data table vs. the wired routes

`utils/models` ships a `RolePermissions` table; `routes.SetupRouter`
however wires the resource routes from fixed lists, gating the admin
subrouter with the hardcoded `middlewares.AdminOnly` check. -/

inductive Verb where
  | get | post | put | patch | delete

structure Permissions where
  get : List String
  post : List String
  put : List String
  patch : List String
  delete : List String

def anonymousPerms : Permissions := ⟨[], [], [], [], []⟩

def userPerms : Permissions :=
  ⟨["example1", "example2", "exampleRelational"], [], [], [], []⟩

def adminResourceList : List String :=
  ["user", "example1", "example2", "exampleRelational"]

def adminPerms : Permissions :=
  ⟨adminResourceList, adminResourceList, adminResourceList,
    adminResourceList, adminResourceList⟩

/-- `models.RolePermissions`. -/
def rolePermissions : List (String × Permissions) :=
  [("anonymous", anonymousPerms), ("user", userPerms), ("admin", adminPerms)]

def permsFor (p : Permissions) : Verb → List String
  | .get => p.get
  | .post => p.post
  | .put => p.put
  | .patch => p.patch
  | .delete => p.delete

/-- The claim's reading of authorization: a role is allowed a
(verb, resource) iff that role's verb list in the table contains the
resource. -/
def tableAllows (role : String) (v : Verb) (res : String) : Bool :=
  match rolePermissions.lookup role with
  | some p => (permsFor p v).contains res
  | none => false

/-- `middlewares.AdminOnly`: forwards iff the context role string equals
`"admin"`, else answers 403. -/
def adminOnlyPasses (role : String) : Bool :=
  role == "admin"

/-- Authorization as actually wired by `routes.SetupRouter`: GET on the
three example resources sits on the authenticated subrouter with no role
check at all; GET on `user` and every POST/PUT/PATCH/DELETE route sits on
the `AdminOnly` subrouter. -/
def routeAllows (role : String) (v : Verb) (res : String) : Bool :=
  match v with
  | .get =>
    (["example1", "example2", "exampleRelational"] : List String).contains res
      || (res == "user" && adminOnlyPasses role)
  | _ => adminResourceList.contains res && adminOnlyPasses role

/-- C4, counterexample: the authenticated role string `"banana"` has no
entry in the permission table, yet the wired routes authorize it for
GET `example1` — authorization is not derived from the table. -/
theorem route_permission_not_table_derived :
    routeAllows "banana" Verb.get "example1" = true
    ∧ tableAllows "banana" Verb.get "example1" = false := by
  decide

/-- C4, amended: enforcement is hardcoded in the route binder — the
admin-gated routes pass exactly the role string `"admin"` (the AdminOnly
check), GET on the example resources passes every authenticated role —
and this coincides with the permission table for the two token-issuable
roles `"admin"` and `"user"`, while any other authenticated role string
is authorized for GET on the example resources despite having no grant
in the table. -/
theorem route_permission_hardcoded (role : String) (v : Verb) (res : String) :
    routeAllows "admin" v res = tableAllows "admin" v res
    ∧ routeAllows "user" v res = tableAllows "user" v res
    ∧ routeAllows role Verb.get "example1" = true
    ∧ (v ≠ Verb.get → routeAllows role v res =
        (adminResourceList.contains res && adminOnlyPasses role)) := by
  refine ⟨?_, ?_, ?_, ?_⟩
  · cases v
    all_goals
      simp [routeAllows, tableAllows, rolePermissions, permsFor, adminPerms,
        adminResourceList, adminOnlyPasses, List.lookup]
    all_goals
      cases h1 : res == "user" <;>
      cases h2 : res == "example1" <;>
      cases h3 : res == "example2" <;>
      cases h4 : res == "exampleRelational" <;>
      simp_all
  · cases v
    all_goals
      simp [routeAllows, tableAllows, rolePermissions, permsFor, userPerms,
        adminResourceList, adminOnlyPasses, List.lookup]
  · simp [routeAllows]
  · intro hv
    cases v <;> simp_all [routeAllows]

/-! ### Create with overwrite (`CreateOrUpdateRecord` + `Controller.Create`) -/

/-- An `example1` table holding the row `{field1: "a", field2: "old"}`. -/
def ex1TableOld : Table String :=
  ⟨(getJSONPrimaryKeys example1Fields).length, [(["a"], "old")]⟩

/-- C5: both halves of the claim fail on the code as deployed (MySQL).
`isDuplicateKeyError` does classify the MySQL 1062 error, but
`Controller.Create`'s case-sensitive `strings.Contains(err.Error(),
"duplicate")` never matches the capital-`D` `"Duplicate entry"` message,
so a duplicate with `overwrite=false` is answered 500, not 409 Conflict.
With `overwrite=true` the fallback update fires and 201 is returned, but
the stored row does NOT reflect the new body: `UpdateRecords`'
`query.First(model)` scans the existing row into the decoded instance
before `Save`, so the old values are written back and echoed
(here `field2` stays `"old"`). -/
theorem create_duplicate_conflict_and_overwrite :
    isDuplicateKeyError dupKeyErr = true
    ∧ strContains dupKeyErr.msg "duplicate" = false
    ∧ createHandler ex1TableOld (["a"], "new") false = (500, ex1TableOld, (["a"], "new"))
    ∧ createHandler ex1TableOld (["a"], "new") true =
        (201, ⟨1, [(["a"], "old")]⟩, (["a"], "old"))
    ∧ (createHandler ex1TableOld (["a"], "new") true).2.1.rows ≠ [(["a"], "new")] := by
  refine ⟨rfl, rfl, rfl, rfl, by decide⟩

/-! ### Auth middleware (`middlewares.AuthMiddleware`) -/

/-- A decoded JWT claim value: a string, or any non-string JSON value
(on which the Go `.(string)` type assertion fails). -/
inductive ClaimVal where
  | str (s : String)
  | nonstr

/-- What the middleware does with the request: reject it with a status
and error body, or attach the Identity Context and forward. -/
inductive AuthOutcome where
  | unauthorized (status : Nat) (msg : String)
  | authenticated (username role : String)

/-- Strip a leading pattern from a character list, when present. -/
def stripPref (pat s : List Char) : Option (List Char) :=
  match pat, s with
  | [], rest => some rest
  | _ :: _, [] => none
  | p :: ps, c :: cs => if p = c then stripPref ps cs else none

/-- Go `strings.TrimPrefix(authHeader, "Bearer ")`: drop the prefix when
present, otherwise return the header unchanged. -/
def trimBearer (s : String) : String :=
  match stripPref "Bearer ".toList s.toList with
  | some rest => rest.asString
  | none => s

def lookupClaim (claims : List (String × ClaimVal)) (k : String) : Option ClaimVal :=
  claims.lookup k

/-- `middlewares.AuthMiddleware`, parameterized by the token-verification
collaborator `utils.ParseJWT` (returns the claim set, or an error). -/
def authMiddleware (parseJWT : String → Option (List (String × ClaimVal)))
    (authHeader : String) : AuthOutcome :=
  if authHeader = "" then
    .unauthorized 401 "Authorization header missing"
  else
    match parseJWT (trimBearer authHeader) with
    | none => .unauthorized 401 "Invalid token"
    | some claims =>
      match lookupClaim claims "username", lookupClaim claims "role" with
      | some uv, some rv =>
        match uv, rv with
        | .str username, .str role =>
          if username = "" ∨ role = "" then
            .unauthorized 401 "Invalid claims in token"
          else
            .authenticated username role
        | _, _ => .unauthorized 401 "Invalid claims in token"
      | _, _ => .unauthorized 401 "Token missing required claims"

/-- The claim set is acceptable: both `username` and `role` are present,
string-typed and nonempty — the spec side of the middleware's contract. -/
def claimsOK (claims : List (String × ClaimVal)) : Bool :=
  match lookupClaim claims "username", lookupClaim claims "role" with
  | some (.str u), some (.str r) => !(u == "") && !(r == "")
  | _, _ => false

/-- C6: a request whose bearer token verifies but whose claim set lacks
the username or role claim, or carries either empty or non-string, is
answered 401 and no Identity Context is attached (the middleware never
forwards it as authenticated). -/
theorem auth_bad_claims_unauthorized
    (parseJWT : String → Option (List (String × ClaimVal)))
    (header : String) (claims : List (String × ClaimVal))
    (hh : header ≠ "")
    (hp : parseJWT (trimBearer header) = some claims)
    (hbad : claimsOK claims = false) :
    ∃ m, authMiddleware parseJWT header = .unauthorized 401 m := by
  rcases h1 : lookupClaim claims "username" with _ | uv
  · exact ⟨"Token missing required claims", by simp [authMiddleware, hh, hp, h1]⟩
  · rcases h2 : lookupClaim claims "role" with _ | rv
    · exact ⟨"Token missing required claims", by simp [authMiddleware, hh, hp, h1, h2]⟩
    · unfold claimsOK at hbad
      rw [h1, h2] at hbad
      cases uv with
      | nonstr =>
        exact ⟨"Invalid claims in token", by simp [authMiddleware, hh, hp, h1, h2]⟩
      | str u =>
        cases rv with
        | nonstr =>
          exact ⟨"Invalid claims in token", by simp [authMiddleware, hh, hp, h1, h2]⟩
        | str r =>
          simp only [Bool.and_eq_false_iff, Bool.not_eq_false'] at hbad
          have hur : u = "" ∨ r = "" := by
            rcases hbad with h | h
            · exact Or.inl (by simpa using h)
            · exact Or.inr (by simpa using h)
          exact ⟨"Invalid claims in token",
            by simp [authMiddleware, hh, hp, h1, h2, if_pos hur]⟩

/-- Witness for `auth_bad_claims_unauthorized`: a verified token whose
claim set has a role but no username claim. -/
theorem auth_bad_claims_unauthorized_witness :
    ∃ m, authMiddleware
        (fun s => if s = "tok" then some [("role", ClaimVal.str "admin")] else none)
        "Bearer tok" = .unauthorized 401 m :=
  auth_bad_claims_unauthorized _ "Bearer tok" [("role", ClaimVal.str "admin")]
    (by decide) (by rfl) (by rfl)

/-! ### GetAll filters (`applyFilters` inside `Controller.GetAll`) -/

/-- A SQL predicate produced by one filter parameter (the claims are
about WHICH predicate each operator builds, so the predicates are kept
syntactic). -/
inductive Cond where
  | eqC (f v : String)
  | neC (f v : String)
  | likeC (f pat : String)
  | nlikeC (f pat : String)
  | gtC (f v : String)
  | gteC (f v : String)
  | ltC (f v : String)
  | lteC (f v : String)
  | inC (f : String) (vs : List String)
  | ninC (f : String) (vs : List String)
  | isNullC (f : String)
  | isNotNullC (f : String)
deriving DecidableEq

/-- The operator dispatch of the `switch operator` in `applyFilters`
(the `if` chain mirrors the `case` order of the source). -/
def applyFilterOp (field op value : String) : Option Cond :=
  if op = "eq" then some (.eqC field value)
  else if op = "ne" ∨ op = "neq" then some (.neC field value)
  else if op = "contains" then some (.likeC field ("%" ++ value ++ "%"))
  else if op = "ncontains" then some (.nlikeC field ("%" ++ value ++ "%"))
  else if op = "gt" then some (.gtC field value)
  else if op = "gte" then some (.gteC field value)
  else if op = "lt" then some (.ltC field value)
  else if op = "lte" then some (.lteC field value)
  else if op = "in" then some (.inC field (splitGo ',' value))
  else if op = "nin" then some (.ninC field (splitGo ',' value))
  else if op = "isnull" then
    (if value.toLower = "true" ∨ value.toLower = "1" then some (.isNullC field)
     else some (.isNotNullC field))
  else none

/-- The operator semantics exactly as the spec sentence words them:
`eq, ne, contains, ncontains, gt, gte, lt, lte, in, nin, isnull` are
supported, `in`/`nin` split the value on commas, `isnull` treats
`"true"`/`"1"` case-insensitively as IS NULL and anything else as
IS NOT NULL, and any unrecognized operator is silently skipped. -/
def applyFilterOpSpec (field op value : String) : Option Cond :=
  if op = "eq" then some (.eqC field value)
  else if op = "ne" then some (.neC field value)
  else if op = "contains" then some (.likeC field ("%" ++ value ++ "%"))
  else if op = "ncontains" then some (.nlikeC field ("%" ++ value ++ "%"))
  else if op = "gt" then some (.gtC field value)
  else if op = "gte" then some (.gteC field value)
  else if op = "lt" then some (.ltC field value)
  else if op = "lte" then some (.lteC field value)
  else if op = "in" then some (.inC field (splitGo ',' value))
  else if op = "nin" then some (.ninC field (splitGo ',' value))
  else if op = "isnull" then
    (if value.toLower = "true" ∨ value.toLower = "1" then some (.isNullC field)
     else some (.isNotNullC field))
  else none

/-- One iteration of the `applyFilters` loop: skip the pagination/sort
keys, require the `filter[...]` shape, split the inside at the first
`][` (Go `strings.SplitN(inside, "][", 2)`), and dispatch the operator.
`none` means the parameter contributes no predicate. -/
def filterCondOfParam (rawKey value : String) : Option Cond :=
  if rawKey = "page" ∨ rawKey = "page_size" ∨ rawKey = "sort" then none
  else
    match stripPref "filter[".toList rawKey.toList with
    | none => none
    | some insideChars =>
      let inside := insideChars.asString
      if ¬inside.endsWith "]" then none
      else
        let inside := inside.dropRight 1
        match inside.splitOn "][" with
        | [] => none
        | [_] => none
        | f :: rest => applyFilterOp f (String.intercalate "][" rest) value

/-- The spec's list of supported operators. -/
def specOperators : List String :=
  ["eq", "ne", "contains", "ncontains", "gt", "gte", "lt", "lte", "in", "nin", "isnull"]

/-- C7, counterexample: `neq` is none of the spec's operators, yet the
code does not skip it — it is applied as an inequality predicate. -/
theorem filter_neq_not_skipped :
    specOperators.contains "neq" = false
    ∧ applyFilterOp "field1" "neq" "v" = some (Cond.neC "field1" "v")
    ∧ ¬(applyFilterOp "field1" "neq" "v" = none) := by
  refine ⟨rfl, rfl, by decide⟩

/-- C7, amended: the operator dispatch behaves exactly as the spec's
mapping, except that the code additionally accepts `neq` as an alias for
`ne`; every other unrecognized operator is skipped silently. -/
theorem filter_operator_dispatch (field op value : String) :
    applyFilterOp field op value =
      (if op = "neq" then some (.neC field value)
       else applyFilterOpSpec field op value) := by
  by_cases h : op = "neq"
  · subst h
    rfl
  · simp [applyFilterOp, applyFilterOpSpec, h]

/-! ### Delete semantics (`DeleteRecords` + `Controller.Delete`) -/

theorem strContains_nodeleted_msg (id : String) :
    strContains ("no records deleted for ID " ++ id) "no records deleted" = true := by
  have hsplit : ("no records deleted for ID " : String) =
      "no records deleted" ++ " for ID " := rfl
  rw [hsplit, String.append_assoc]
  exact strContains_of_isPrefix _ _

/-- C8: with a correctly tokenized key, a Delete matching no row (in
particular a repeated Delete of an already-deleted key) affects zero rows
and is answered 404 with the untouched store — no crash — while a
successful Delete answers 200 with the body
`{"message": "Deleted successfully"}`, after which deleting the same key
again is answered 404. -/
theorem delete_zero_rows_and_success {α : Type} (t : Table α) (id : String)
    (hlen : t.pkCount = (splitId id).length) :
    ((∀ r ∈ t.rows, ¬(r.1 = splitId id)) →
      deleteHandler t id = (404, "no records deleted for ID " ++ id, t))
    ∧ (∀ t', deleteRecords t id = .ok t' →
      deleteHandler t id = (200, "Deleted successfully", t')
      ∧ (deleteHandler t' id).1 = 404) := by
  have hne : ¬(t.pkCount ≠ (splitId id).length) := fun h => h hlen
  constructor
  · intro hnone
    have hfilter : t.rows.filter (fun r => !(r.1 == splitId id)) = t.rows := by
      apply List.filter_eq_self.mpr
      intro a ha
      simpa using hnone a ha
    have hdel : deleteRecords t id =
        .error ⟨"no records deleted for ID " ++ id, none⟩ := by
      simp only [deleteRecords]
      rw [if_neg hne, hfilter, if_pos rfl]
    simp [deleteHandler, hdel, strContains_nodeleted_msg]
  · intro t' hok
    have hok' := hok
    simp only [deleteRecords] at hok'
    rw [if_neg hne] at hok'
    by_cases hall : (t.rows.filter (fun r => !(r.1 == splitId id))).length = t.rows.length
    · rw [if_pos hall] at hok'
      exact absurd hok' (by simp)
    · rw [if_neg hall] at hok'
      have ht' : t' = ⟨t.pkCount, t.rows.filter (fun r => !(r.1 == splitId id))⟩ := by
        cases hok'
        rfl
      subst ht'
      constructor
      · simp only [deleteHandler, hok]
      · have hneone : ∀ r ∈ t.rows.filter (fun r => !(r.1 == splitId id)),
            ¬(r.1 = splitId id) := by
          intro r hr
          have := (List.mem_filter.mp hr).2
          simpa using this
        have hfilter2 : (t.rows.filter (fun r => !(r.1 == splitId id))).filter
            (fun r => !(r.1 == splitId id)) =
            t.rows.filter (fun r => !(r.1 == splitId id)) := by
          apply List.filter_eq_self.mpr
          intro a ha
          simpa using hneone a ha
        have hdel2 : deleteRecords
            (⟨t.pkCount, t.rows.filter (fun r => !(r.1 == splitId id))⟩ : Table α) id =
            .error ⟨"no records deleted for ID " ++ id, none⟩ := by
          simp only [deleteRecords]
          rw [if_neg hne, hfilter2, if_pos rfl]
        simp [deleteHandler, hdel2, strContains_nodeleted_msg]

/-- Witness for `delete_zero_rows_and_success` at the one-row `example1`
table and the id `"k"`. -/
theorem delete_zero_rows_and_success_witness :
    (⟨1, [(["k"], "x")]⟩ : Table String).pkCount = (splitId "k").length
    ∧ (((∀ r ∈ (⟨1, [(["k"], "x")]⟩ : Table String).rows, ¬(r.1 = splitId "k")) →
        deleteHandler (⟨1, [(["k"], "x")]⟩ : Table String) "k" =
          (404, "no records deleted for ID " ++ "k", ⟨1, [(["k"], "x")]⟩))
      ∧ (∀ t', deleteRecords (⟨1, [(["k"], "x")]⟩ : Table String) "k" = .ok t' →
        deleteHandler (⟨1, [(["k"], "x")]⟩ : Table String) "k" =
          (200, "Deleted successfully", t')
        ∧ (deleteHandler t' "k").1 = 404)) :=
  ⟨by decide, delete_zero_rows_and_success _ _ (by decide)⟩

/-! ### Hyphen-containing key values on single-key resources -/

/-- C9: for a resource with a single string primary key, a key value
containing a hyphen (such as `"a-b"`) can be created — `Create` never
tokenizes — but every tokenized-id operation splits the id on each
hyphen into ≥ 2 segments, so `GetByID`, `Update` and `Delete` always
fail with the segment-count-mismatch error and can never match the row. -/
theorem hyphen_key_created_but_unaddressable {α : Type} (v : String)
    (hv : hasHyphen v = true) (t : Table α) (hpk : t.pkCount = 1) :
    (∀ payload : α, (∀ r ∈ t.rows, ¬(r.1 = [v])) →
      createHandler t ([v], payload) false =
        (201, ⟨t.pkCount, t.rows ++ [([v], payload)]⟩, ([v], payload)))
    ∧ getRecordsByID t v =
        .error ⟨"mismatch between primary keys and tokenized ID", none⟩
    ∧ (∀ body : List String × α, updateRecords t body v =
        .error ⟨"mismatch between number of primary keys and ID parts", none⟩)
    ∧ deleteRecords t v =
        .error ⟨deleteMismatchMsg t.pkCount (splitId v).length, none⟩ := by
  have hlen : t.pkCount ≠ (splitId v).length := by
    rw [hpk]
    exact fun h => splitId_length_ne_one_of_hasHyphen v hv h.symm
  have hvne : v ≠ "" := by
    intro h
    subst h
    simp [hasHyphen] at hv
  refine ⟨?_, ?_, ?_, ?_⟩
  · intro payload hfree
    have hins : insertRow t ([v], payload) =
        .ok ⟨t.pkCount, t.rows ++ [([v], payload)]⟩ := by
      simp only [insertRow]
      rw [if_neg ?_]
      intro hany
      rcases List.any_eq_true.mp hany with ⟨r, hr, hpred⟩
      exact hfree r hr (by simpa using hpred)
    simp [createHandler, createOrUpdateRecord, hins]
  · simp only [getRecordsByID]
    rw [if_pos hlen]
  · intro body
    simp only [updateRecords]
    rw [if_neg hvne, if_pos hlen]
  · simp only [deleteRecords]
    rw [if_pos hlen]

/-- Witness for `hyphen_key_created_but_unaddressable` at the key value
`"a-b"` and the empty `example1` table. -/
theorem hyphen_key_created_but_unaddressable_witness :
    (hasHyphen "a-b" = true ∧ (⟨1, []⟩ : Table String).pkCount = 1)
    ∧ ((∀ payload : String,
        (∀ r ∈ (⟨1, []⟩ : Table String).rows, ¬(r.1 = ["a-b"])) →
        createHandler (⟨1, []⟩ : Table String) (["a-b"], payload) false =
          (201, ⟨1, [(["a-b"], payload)]⟩, (["a-b"], payload)))
      ∧ getRecordsByID (⟨1, []⟩ : Table String) "a-b" =
          .error ⟨"mismatch between primary keys and tokenized ID", none⟩
      ∧ (∀ body : List String × String,
          updateRecords (⟨1, []⟩ : Table String) body "a-b" =
            .error ⟨"mismatch between number of primary keys and ID parts", none⟩)
      ∧ deleteRecords (⟨1, []⟩ : Table String) "a-b" =
          .error ⟨deleteMismatchMsg 1 (splitId "a-b").length, none⟩) :=
  ⟨⟨by decide, by decide⟩,
    hyphen_key_created_but_unaddressable "a-b" (by decide) _ (by decide)⟩

/-! ### Login (`AuthController.handleLogin`) -/

/-- Go `strings.TrimSpace` (ASCII whitespace model). -/
def trimSpace (s : String) : String :=
  (((s.toList.dropWhile isSpaceByte).reverse.dropWhile isSpaceByte).reverse).asString

structure LoginInput where
  username : String
  password : String

/-- `handleLogin` on a decoded `{username, password}` body: trim and
validate the input, fetch the user by primary key through
`GetRecordsByID`, check the password through the bcrypt collaborator
`checkPw`, and issue a token on success.  The user table's payload is
`(hashed password, role)`. -/
def handleLogin (users : Table (String × String))
    (checkPw : String → String → Bool) (input : LoginInput) : Nat × String :=
  let uname := trimSpace input.username
  if uname = "" ∨ input.password = "" then
    (400, "Username and password cannot be empty")
  else
    match getRecordsByID users uname with
    | .error _ => (401, "Invalid username or password")
    | .ok row =>
      if checkPw row.2.1 input.password then (200, "token")
      else (401, "Invalid username or password")

/-- C10: a login that fails because the username is unknown and a login
that fails because the password is wrong produce the same response —
401 with body `{"error": "Invalid username or password"}` — so the two
failure causes are indistinguishable to an observer. -/
theorem login_failures_indistinguishable (users : Table (String × String))
    (checkPw : String → String → Bool) (in1 in2 : LoginInput)
    (h1u : ¬(trimSpace in1.username = "")) (h1p : ¬(in1.password = ""))
    (h2u : ¬(trimSpace in2.username = "")) (h2p : ¬(in2.password = ""))
    (h1 : ∃ e, getRecordsByID users (trimSpace in1.username) = .error e)
    (h2 : ∃ row, getRecordsByID users (trimSpace in2.username) = .ok row
      ∧ checkPw row.2.1 in2.password = false) :
    handleLogin users checkPw in1 = (401, "Invalid username or password")
    ∧ handleLogin users checkPw in2 = (401, "Invalid username or password")
    ∧ handleLogin users checkPw in1 = handleLogin users checkPw in2 := by
  obtain ⟨e, he⟩ := h1
  obtain ⟨row, hrow, hbad⟩ := h2
  have hr1 : handleLogin users checkPw in1 = (401, "Invalid username or password") := by
    simp only [handleLogin]
    rw [if_neg (not_or.mpr ⟨h1u, h1p⟩), he]
  have hr2 : handleLogin users checkPw in2 = (401, "Invalid username or password") := by
    simp only [handleLogin]
    rw [if_neg (not_or.mpr ⟨h2u, h2p⟩), hrow]
    simp [hbad]
  exact ⟨hr1, hr2, hr1.trans hr2.symm⟩

/-- Witness for `login_failures_indistinguishable`: a store holding only
`alice`, an unknown-user attempt as `bob`, and a wrong-password attempt
as `alice`. -/
theorem login_failures_indistinguishable_witness :
    handleLogin (⟨1, [(["alice"], ("HASH", "user"))]⟩ : Table (String × String))
        (fun _ _ => false) ⟨"bob", "pw"⟩ =
      (401, "Invalid username or password")
    ∧ handleLogin (⟨1, [(["alice"], ("HASH", "user"))]⟩ : Table (String × String))
        (fun _ _ => false) ⟨"alice", "wrong"⟩ =
      (401, "Invalid username or password")
    ∧ handleLogin (⟨1, [(["alice"], ("HASH", "user"))]⟩ : Table (String × String))
        (fun _ _ => false) ⟨"bob", "pw"⟩ =
      handleLogin (⟨1, [(["alice"], ("HASH", "user"))]⟩ : Table (String × String))
        (fun _ _ => false) ⟨"alice", "wrong"⟩ :=
  login_failures_indistinguishable _ _ _ _
    (by decide) (by decide) (by decide) (by decide)
    ⟨⟨"record not found", none⟩, by rfl⟩
    ⟨(["alice"], ("HASH", "user")), by rfl, by rfl⟩

end ApiTemplate
